import Mathlib

/-!
Verification of the core transcription logic of
`Audio Transcriber/audio_transcriber_streamlit.py`.

The embedding models the `AudioTranscriber` class: size-based routing
(`transcribe_audio`), chunk-length computation and splitting
(`split_audio_into_chunks` over pydub's `make_chunks`), the chunked
pipeline with its temp-file lifecycle (`transcribe_large_file`), the
FFmpeg-missing classification in `load_audio`, and the pure helper
`get_default_transcript_path`.  External effects (file sizes, decode
results, transcription service responses) are supplied as parameters;
filesystem state is threaded explicitly.
-/

namespace ATS

/-! ## Audio segments and errors -/

/-- In-memory decoded audio, as exposed by `pydub.AudioSegment`:
sample rate (`frame_rate`), sample byte width (`frame_width`), channel
count (`channels`), and total duration in milliseconds (`len(seg)`). -/
structure AudioSeg where
  frame_rate : Nat
  frame_width : Nat
  channels : Nat
  length_ms : Nat
deriving DecidableEq, Repr

/-- Python exceptions that the modelled code can raise. -/
inductive PyErr where
  /-- Python `ZeroDivisionError` (integer or float division by zero). -/
  | zeroDivision : PyErr
  /-- Python `FileNotFoundError`, with the message it carries. -/
  | fileNotFound : String → PyErr
  /-- `pydub.exceptions.CouldntDecodeError`: unrecognized container/codec. -/
  | couldntDecode : PyErr
  /-- Any failure raised by the remote transcription call. -/
  | transcriptionFailed : String → PyErr
deriving DecidableEq, Repr

/-! ## Routing (`transcribe_audio`, lines 43-45 and 91-100) -/

/-- `self.max_file_size = 25 * 1024 * 1024  # 25 MB`. -/
def max_file_size : Nat := 25 * 1024 * 1024

/-- The two routing outcomes of `transcribe_audio`. -/
inductive Route where
  | direct : Route
  | chunked : Route
deriving DecidableEq, Repr

/-- `if file_size < self.max_file_size:` — the routing decision. -/
def route (file_size : Nat) : Route :=
  if file_size < max_file_size then .direct else .chunked

/-! ## Chunk-length computation and splitting (lines 71-76) -/

/-- `bitrate = audio.frame_rate * audio.frame_width * 8 * audio.channels`. -/
def bitrate (seg : AudioSeg) : Nat :=
  seg.frame_rate * seg.frame_width * 8 * seg.channels

/-- `chunk_length_ms = int((chunk_size_bytes * 8 * 1000) / bitrate)` with
`chunk_size_bytes = chunk_size_mb * 1024 * 1024`.  Python's float division
followed by `int(...)` truncation is modelled as the exact rational floor,
i.e. `Nat` division; only meaningful when `bitrate seg ≠ 0` (the caller
raises `ZeroDivisionError` otherwise). -/
def chunk_length_ms (seg : AudioSeg) (chunk_size_mb : Nat) : Nat :=
  chunk_size_mb * 1024 * 1024 * 8 * 1000 / bitrate seg

/-- Modelled from the spec: `pydub.utils.make_chunks` is library code that
lives outside this repository.  Per its documented behaviour (and the
spec's Split description) it computes `number_of_chunks =
ceil(len(audio) / float(chunk_length))` — raising `ZeroDivisionError`
when `chunk_length` is `0` — and returns the slices
`audio[i*chunk_length : (i+1)*chunk_length]` for `i < number_of_chunks`;
slicing clamps at the end of the audio.  A chunk is represented by its
length in milliseconds. -/
def make_chunks (total_ms chunk_len : Nat) : Except PyErr (List Nat) :=
  if chunk_len = 0 then .error .zeroDivision
  else .ok ((List.range ((total_ms + chunk_len - 1) / chunk_len)).map
    (fun i => min ((i + 1) * chunk_len) total_ms - i * chunk_len))

/-- `split_audio_into_chunks`: computes the bitrate (raising
`ZeroDivisionError` when it is zero, as Python's division does) and
delegates to `make_chunks`. -/
def split_audio_into_chunks (seg : AudioSeg) (chunk_size_mb : Nat) :
    Except PyErr (List Nat) :=
  if bitrate seg = 0 then .error .zeroDivision
  else make_chunks seg.length_ms (chunk_length_ms seg chunk_size_mb)

/-! ## Loading (`load_audio`, lines 50-69) -/

/-- Outcome of the external `AudioSegment.from_file` call: success, a
`FileNotFoundError` (raised by pydub when the FFmpeg binary is absent
from the environment), or a `CouldntDecodeError` (unrecognized
container/codec). -/
inductive DecodeOutcome where
  | ok : AudioSeg → DecodeOutcome
  | fileNotFound : DecodeOutcome
  | couldntDecode : DecodeOutcome
deriving DecidableEq, Repr

/-- The message of the re-raised `FileNotFoundError` in `load_audio`. -/
def ffmpeg_missing_msg : String :=
  "FFmpeg not found! Please install FFmpeg: conda install -c conda-forge ffmpeg, or download from https://ffmpeg.org/download.html"

/-- `load_audio`: the `try`/`except FileNotFoundError` around
`AudioSegment.from_file`.  A `FileNotFoundError` (FFmpeg absent) is
re-raised with the installation-instructions message; any other decode
failure (`CouldntDecodeError`) propagates unchanged. -/
def load_audio (d : DecodeOutcome) : Except PyErr AudioSeg :=
  match d with
  | .ok seg => .ok seg
  | .fileNotFound => .error (.fileNotFound ffmpeg_missing_msg)
  | .couldntDecode => .error .couldntDecode

/-! ## Merge (`" ".join(transcripts)`, line 142) -/

/-- Python's `sep.join(xs)`: the elements of `xs` concatenated with `sep`
between consecutive elements; `""` on the empty list, and the sole
element unchanged on a singleton. -/
def pyJoin (sep : String) : List String → String
  | [] => ""
  | [x] => x
  | x :: y :: xs => x ++ sep ++ pyJoin sep (y :: xs)

/-! ## Filesystem and progress state of the chunked pipeline -/

/-- Observable filesystem state of the pipeline: whether the
`temp_audio_chunks` directory exists, and which chunk files
(`chunk_i.mp3`, identified by their index `i`) exist inside it. -/
structure FS where
  dirExists : Bool
  files : List Nat
deriving DecidableEq, Repr

/-- Pipeline state: the filesystem, the status messages delivered to
the progress callback so far, and a trace recording the filesystem
state after every filesystem operation. -/
structure St where
  fs : FS
  msgs : List String
  trace : List FS
deriving DecidableEq, Repr

/-- The initial state: no temp directory, no files, nothing emitted. -/
def initSt : St := ⟨⟨false, []⟩, [], []⟩

/-- `if progress_callback: progress_callback(m)` — appends `m` to the
delivered messages when a callback was supplied, and does nothing
otherwise. -/
def emit (cb : Bool) (m : String) (s : St) : St :=
  if cb then { s with msgs := s.msgs ++ [m] } else s

/-- Record the current filesystem state in the trace. -/
def record (s : St) : St :=
  { s with trace := s.trace ++ [s.fs] }

/-- `temp_dir.mkdir(exist_ok=True)`. -/
def mkdirTemp (s : St) : St :=
  record { s with fs := { s.fs with dirExists := true } }

/-- `chunk.export(temp_file, format="mp3")` for chunk `i`. -/
def exportChunk (i : Nat) (s : St) : St :=
  record { s with fs := { s.fs with files := s.fs.files ++ [i] } }

/-- `temp_file.unlink()` for chunk `i`. -/
def unlinkChunk (i : Nat) (s : St) : St :=
  record { s with fs := { s.fs with files := s.fs.files.filter (fun j => j ≠ i) } }

/-- `shutil.rmtree(temp_dir)`: removes the directory and everything in it. -/
def rmtreeTemp (s : St) : St :=
  record { s with fs := ⟨false, []⟩ }

/-! ## The chunked pipeline (`transcribe_large_file`, lines 104-149) -/

/-- External collaborators of one `transcribe_audio` run: the input
file's byte size, the decode outcome, the transcription-service
response for the whole file (direct path) and per chunk index. -/
structure Env where
  file_size : Nat
  decode : DecodeOutcome
  transcribeWhole : Except PyErr String
  transcribeChunk : Nat → Except PyErr String

/-- The `for i, chunk in enumerate(chunks):` body inside the `try`:
emit progress, export chunk `i`, call the transcription service (an
error aborts the loop and propagates to the `finally`), append the
chunk transcript, delete the chunk file, emit completion.  `i` is the
current index, `total` the chunk count, `acc` the transcripts so far. -/
def chunkLoop (tc : Nat → Except PyErr String) (cb : Bool) (total : Nat) :
    List Nat → Nat → List String → St → Except PyErr (List String) × St
  | [], _, acc, s => (.ok acc, s)
  | _chunk :: rest, i, acc, s =>
    let s := emit cb ("Processing chunk " ++ toString (i + 1) ++ "/" ++
      toString total ++ "...") s
    let s := exportChunk i s
    match tc i with
    | .error e => (.error e, s)
    | .ok t =>
      let s := unlinkChunk i s
      let s := emit cb ("Chunk " ++ toString (i + 1) ++ "/" ++
        toString total ++ " completed") s
      chunkLoop tc cb total rest (i + 1) (acc ++ [t]) s

/-- The `finally` clause: `if temp_dir.exists(): shutil.rmtree(temp_dir)`. -/
def finallyCleanup (s : St) : St :=
  if s.fs.dirExists then rmtreeTemp s else s

/-- The tail of the `try`/`finally` in `transcribe_large_file`: given
the outcome of the per-chunk loop, on success emit the merging message
and space-join the transcripts; then — in `finally`, on both outcomes —
remove the temp directory if it exists. -/
def finishRun (cb : Bool) (res : Except PyErr (List String) × St) :
    Except PyErr String × St :=
  let out : Except PyErr String × St :=
    match res.1 with
    | .error e => (.error e, res.2)
    | .ok ts =>
      let s := emit cb "Merging transcripts..." res.2
      (.ok (pyJoin " " ts), s)
  (out.1, finallyCleanup out.2)

/-- The chunk-processing phase of `transcribe_large_file`: emit the
split-count message, make the temp directory, run the per-chunk loop
inside `try`, and finish with the merge and the `finally` cleanup. -/
def runChunksAndMerge (tc : Nat → Except PyErr String) (cb : Bool)
    (chunks : List Nat) (s : St) : Except PyErr String × St :=
  let s := emit cb ("Audio split into " ++ toString chunks.length ++
    " chunks") s
  let s := mkdirTemp s
  finishRun cb (chunkLoop tc cb chunks.length chunks 0 [] s)

/-- `transcribe_large_file`: load, split, then the chunk loop with its
merge and unconditional cleanup. -/
def transcribe_large_file (env : Env) (cb : Bool) (s : St) :
    Except PyErr String × St :=
  let s := emit cb "Loading audio file..." s
  match load_audio env.decode with
  | .error e => (.error e, s)
  | .ok seg =>
    let s := emit cb "Splitting audio into chunks..." s
    match split_audio_into_chunks seg 20 with
    | .error e => (.error e, s)
    | .ok chunks => runChunksAndMerge env.transcribeChunk cb chunks s

/-- `transcribe_audio`: check the size and route to the direct single
call or to `transcribe_large_file`. -/
def transcribe_audio (env : Env) (cb : Bool) : Except PyErr String × St :=
  let s := initSt
  let s := emit cb "Checking file size..." s
  match route env.file_size with
  | .direct =>
    let s := emit cb "Transcribing directly..." s
    (env.transcribeWhole, s)
  | .chunked =>
    let s := emit cb "Splitting into chunks..." s
    transcribe_large_file env cb s

/-! ## `get_default_transcript_path` (lines 152-156)

`pathlib.Path` is modelled at the character level: a path string is
split on `'/'` into components; `Path.stem` drops the final component's
last extension; `parent / name` re-joins the directory components with
the new file name. -/

/-- Split a character list on `'/'`, keeping empty groups. -/
def splitOnSlash : List Char → List (List Char)
  | [] => [[]]
  | c :: cs =>
    match splitOnSlash cs with
    | [] => [[c]]
    | g :: gs => if c = '/' then [] :: g :: gs else (c :: g) :: gs

/-- Split a character list at its first `'.'`: `some (before, after)`
when a dot occurs, `none` otherwise. -/
def splitFirstDot : List Char → Option (List Char × List Char)
  | [] => none
  | c :: cs =>
    if c = '.' then some ([], cs)
    else (splitFirstDot cs).map (fun p => (c :: p.1, p.2))

/-- `pathlib.PurePath.stem` on a file name: the name without its last
suffix.  The suffix is the part from the last `'.'` on, and only counts
when that dot is neither the first nor the last character of the name
(`Path(".bashrc").stem = ".bashrc"`, `Path("song.").stem = "song."`). -/
def pathStem (name : List Char) : List Char :=
  match splitFirstDot name.reverse with
  | some (re, rs) => if re ≠ [] ∧ rs ≠ [] then rs.reverse else name
  | none => name

/-- A parsed `pathlib.Path`: whether it is absolute, and its non-empty
components in order. -/
structure PyPath where
  absolute : Bool
  parts : List (List Char)
deriving DecidableEq, Repr

/-- `pathlib.Path(s)`: absolute iff the string starts with `'/'`;
components are the non-empty groups between slashes. -/
def parsePath (s : String) : PyPath :=
  ⟨(match s.toList with | '/' :: _ => true | _ => false),
   (splitOnSlash s.toList).filter (fun g => g ≠ [])⟩

/-- Join components with `'/'` between consecutive components. -/
def joinSlash : List (List Char) → List Char
  | [] => []
  | [g] => g
  | g :: g' :: gs => g ++ '/' :: joinSlash (g' :: gs)

/-- `str(path)`: a leading `'/'` for absolute paths, then the
slash-joined components. -/
def renderPath (p : PyPath) : String :=
  String.mk ((if p.absolute then ['/'] else []) ++ joinSlash p.parts)

/-- The final component of the path (`Path.name`), `[]` for the empty
path. -/
def pathName (p : PyPath) : List Char :=
  p.parts.getLast?.getD []

/-- `get_default_transcript_path`: `audio_path.parent /
(audio_path.stem + "_transcript.txt")`. -/
def get_default_transcript_path (audio_file_path : String) : String :=
  let audio_path := parsePath audio_file_path
  let transcript_name := pathStem (pathName audio_path) ++
    "_transcript.txt".toList
  renderPath ⟨audio_path.absolute, audio_path.parts.dropLast ++ [transcript_name]⟩

/-! ## Concrete environments used by witnesses -/

/-- A small direct-path environment. -/
def envDirect : Env :=
  ⟨100, .fileNotFound, .ok "whole text", fun _ => .ok "chunk text"⟩

/-- A chunked-path environment whose audio splits into 3 chunks of
lengths 10, 10 and 5 ms (`bitrate = 2097152000 * 8 = 16777216000`,
`chunk_length_ms = 167772160000 / 16777216000 = 10`), and whose
transcription call fails on chunk index 1 (the second of three). -/
def envFailMid : Env :=
  ⟨30000000, .ok ⟨2097152000, 1, 1, 25⟩, .ok "unused",
   fun i => if i = 1 then .error (.transcriptionFailed "API error") else .ok ("t" ++ toString i)⟩

/-- A chunked-path environment whose three chunk calls all succeed. -/
def envOk3 : Env :=
  ⟨30000000, .ok ⟨2097152000, 1, 1, 25⟩, .ok "unused",
   fun i => .ok ("t" ++ toString i)⟩

/-- A chunked-path environment whose decoded audio has zero duration. -/
def envZeroDur : Env :=
  ⟨26214400, .ok ⟨1, 1, 1, 0⟩, .ok "unused", fun _ => .ok "chunk text"⟩

/-- Every filesystem snapshot in `l` holds at most one chunk file. -/
def atMostOneFileEach (l : List FS) : Bool :=
  l.all (fun f => f.files.length ≤ 1)

/-! # Theorems -/

/-! ## Basic state-operation lemmas -/

theorem emit_fs (cb : Bool) (m : String) (s : St) : (emit cb m s).fs = s.fs := by
  unfold emit; split <;> rfl

theorem emit_trace (cb : Bool) (m : String) (s : St) :
    (emit cb m s).trace = s.trace := by
  unfold emit; split <;> rfl

theorem exportChunk_fs (i : Nat) (s : St) :
    (exportChunk i s).fs = ⟨s.fs.dirExists, s.fs.files ++ [i]⟩ := rfl

theorem exportChunk_trace (i : Nat) (s : St) :
    (exportChunk i s).trace = s.trace ++ [⟨s.fs.dirExists, s.fs.files ++ [i]⟩] := rfl

theorem unlinkChunk_fs (i : Nat) (s : St) :
    (unlinkChunk i s).fs =
      ⟨s.fs.dirExists, s.fs.files.filter (fun j => j ≠ i)⟩ := rfl

theorem unlinkChunk_trace (i : Nat) (s : St) :
    (unlinkChunk i s).trace =
      s.trace ++ [⟨s.fs.dirExists, s.fs.files.filter (fun j => j ≠ i)⟩] := rfl

theorem mkdirTemp_fs (s : St) : (mkdirTemp s).fs = ⟨true, s.fs.files⟩ := rfl

theorem mkdirTemp_trace (s : St) :
    (mkdirTemp s).trace = s.trace ++ [⟨true, s.fs.files⟩] := rfl

theorem rmtreeTemp_fs (s : St) : (rmtreeTemp s).fs = ⟨false, []⟩ := rfl

theorem rmtreeTemp_trace (s : St) :
    (rmtreeTemp s).trace = s.trace ++ [⟨false, []⟩] := rfl

/-! ## C1: size-based routing -/

/-- C1: for every byte size `s`, the routing decision in
`transcribe_audio` is `Direct` iff `s < max_file_size`; at `s =
max_file_size` (the fixed 25 MiB threshold) the chunked path is taken;
and on the direct route `transcribe_audio` returns exactly the single
whole-file transcription result. -/
theorem C1_size_routing :
    (∀ s, route s = Route.direct ↔ s < max_file_size) ∧
    route max_file_size = Route.chunked ∧
    max_file_size = 25 * 1024 * 1024 ∧
    (∀ env cb, route env.file_size = Route.direct →
      (transcribe_audio env cb).1 = env.transcribeWhole) := by
  refine ⟨?_, ?_, rfl, ?_⟩
  · intro s
    unfold route
    split <;> simp_all
  · simp [route]
  · intro env cb h
    simp [transcribe_audio, h]

/-- C1 witness: a 100-byte file routes direct and the direct result is
the whole-file transcription. -/
theorem C1_size_routing_witness :
    route envDirect.file_size = Route.direct ∧
    (transcribe_audio envDirect false).1 = envDirect.transcribeWhole :=
  ⟨(C1_size_routing.1 envDirect.file_size).mpr (by decide),
   C1_size_routing.2.2.2 envDirect false
     ((C1_size_routing.1 envDirect.file_size).mpr (by decide))⟩

/-! ## C7: decode-failure classification in `load_audio` -/

/-- C7: a decode failure caused by the FFmpeg binary being absent
(pydub's `FileNotFoundError`) is reported by `load_audio` as a
distinct missing-dependency error carrying the FFmpeg installation
message, while an unsupported container/codec failure
(`CouldntDecodeError`) propagates unchanged, and the two reported
errors are different. -/
theorem C7_decode_error_classification :
    load_audio DecodeOutcome.fileNotFound =
      Except.error (PyErr.fileNotFound ffmpeg_missing_msg) ∧
    load_audio DecodeOutcome.couldntDecode =
      Except.error PyErr.couldntDecode ∧
    (Except.error (PyErr.fileNotFound ffmpeg_missing_msg) ≠
      (Except.error PyErr.couldntDecode : Except PyErr AudioSeg)) ∧
    (∀ seg, load_audio (DecodeOutcome.ok seg) = Except.ok seg) :=
  ⟨rfl, rfl, by simp, fun _ => rfl⟩

/-! ## C5: merge is an order-preserving space join -/

theorem intercalate_go_eq_pyJoin (sep : String) :
    ∀ (l : List String) (acc : String),
      String.intercalate.go acc sep l = pyJoin sep (acc :: l) := by
  intro l
  induction l with
  | nil => intro acc; rfl
  | cons a as ih =>
    intro acc
    show String.intercalate.go (acc ++ sep ++ a) sep as = _
    rw [ih (acc ++ sep ++ a)]
    cases as with
    | nil => rfl
    | cons b bs => simp [pyJoin, String.append_assoc]

/-- C5: the merge step (Python's `" ".join`) is exactly the join of the
per-chunk strings with one space between consecutive elements, in input
order (it agrees with `String.intercalate " "` on every list); a
singleton list merges to its sole element unchanged; the order example
of the spec holds; and on a successful three-chunk run the pipeline
returns the space-join of the three chunk transcripts in index order. -/
theorem C5_merge_space_join :
    (∀ xs, pyJoin " " xs = String.intercalate " " xs) ∧
    (∀ t, pyJoin " " [t] = t) ∧
    pyJoin " " ["a", "b", "c"] = "a b c" ∧
    (transcribe_audio envOk3 true).1 =
      Except.ok (pyJoin " " ["t0", "t1", "t2"]) := by
  refine ⟨?_, fun t => rfl, by decide, by rfl⟩
  intro xs
  cases xs with
  | nil => rfl
  | cons a as =>
    show pyJoin " " (a :: as) = String.intercalate.go a " " as
    rw [intercalate_go_eq_pyJoin]

/-! ## C2: chunk-length computation and its degenerate inputs -/

/-- C2 counterexample: with the default 20 MiB budget and the
all-positive audio properties `frame_rate = 20971520001`,
`frame_width = 1`, `channels = 1`, the computed chunk duration is `0`
(not strictly positive), and `split_audio_into_chunks` then fails with
`ZeroDivisionError`; and on a zero bitrate (`frame_rate = 0`) the
failure is likewise `ZeroDivisionError`, there being no
`InvalidAudioPropertiesError` in the code. -/
theorem C2_chunk_length_cex :
    (0 < (20971520001 : Nat) ∧
      chunk_length_ms ⟨20971520001, 1, 1, 1000⟩ 20 = 0 ∧
      split_audio_into_chunks ⟨20971520001, 1, 1, 1000⟩ 20 =
        Except.error PyErr.zeroDivision) ∧
    split_audio_into_chunks ⟨0, 1, 1, 1000⟩ 20 =
      Except.error PyErr.zeroDivision :=
  ⟨⟨by decide, by decide, by rfl⟩, by rfl⟩

/-- C2 amended: for positive budget and audio properties the computed
chunk duration is positive provided the uncompressed bitrate does not
exceed `chunk_size_mb·1024·1024·8·1000` (beyond that bound the integer
truncation yields duration `0`), and a zero bitrate makes
`split_audio_into_chunks` fail with Python's `ZeroDivisionError` (the
code defines no `InvalidAudioPropertiesError`). -/
theorem C2_chunk_length_amended :
    ∀ mb r w c d, 0 < mb → 0 < r → 0 < w → 0 < c →
      (bitrate ⟨r, w, c, d⟩ ≤ mb * 1024 * 1024 * 8 * 1000 →
        0 < chunk_length_ms ⟨r, w, c, d⟩ mb) ∧
      (∀ seg, bitrate seg = 0 →
        split_audio_into_chunks seg mb =
          Except.error PyErr.zeroDivision) := by
  intro mb r w c d _hmb hr hw hc
  constructor
  · intro hle
    have hb : 0 < bitrate ⟨r, w, c, d⟩ := by
      have h8 : 0 < (8 : Nat) := by norm_num
      exact Nat.mul_pos (Nat.mul_pos (Nat.mul_pos hr hw) h8) hc
    exact Nat.div_pos hle hb
  · intro seg h
    simp [split_audio_into_chunks, h]

/-- C2 witness: at budget 20 and unit audio properties the bound holds,
the duration is positive, and the zero-bitrate input fails with
`ZeroDivisionError`. -/
theorem C2_chunk_length_amended_witness :
    0 < chunk_length_ms ⟨1, 1, 1, 5⟩ 20 ∧
    split_audio_into_chunks ⟨0, 1, 1, 5⟩ 20 =
      Except.error PyErr.zeroDivision :=
  ⟨(C2_chunk_length_amended 20 1 1 1 5 (by decide) (by decide) (by decide)
      (by decide)).1 (by decide),
   (C2_chunk_length_amended 20 1 1 1 5 (by decide) (by decide) (by decide)
      (by decide)).2 ⟨0, 1, 1, 5⟩ (by decide)⟩

/-! ## C4: split coverage -/

theorem chunkLens_sum (L D : Nat) :
    ∀ n, ((List.range n).map (fun i => min ((i + 1) * L) D - i * L)).sum =
      min (n * L) D := by
  intro n
  induction n with
  | zero => simp
  | succ n ih =>
    rw [List.range_succ, List.map_append, List.sum_append, ih]
    have h : (n + 1) * L = n * L + L := by ring
    simp only [List.map_cons, List.map_nil, List.sum_cons, List.sum_nil]
    omega

theorem ceil_div_bounds (D L : Nat) (hL : 0 < L) :
    D ≤ ((D + L - 1) / L) * L ∧ ((D + L - 1) / L) * L ≤ D + L - 1 := by
  have hdm := Nat.div_add_mod (D + L - 1) L
  have hmod : (D + L - 1) % L < L := Nat.mod_lt _ hL
  have hcomm : ((D + L - 1) / L) * L = L * ((D + L - 1) / L) :=
    Nat.mul_comm _ _
  rw [hcomm]
  set p := L * ((D + L - 1) / L) with hp
  omega

/-- The chunk-length list produced by `make_chunks` on a positive
duration `D` and positive chunk length `L`: nonempty, sums to `D`, all
entries but the last equal `L`, and the last lies in `(0, L]`. -/
theorem make_chunks_spec (D L : Nat) (hD : 0 < D) (hL : 0 < L) :
    ∃ cs, make_chunks D L = Except.ok cs ∧
      cs ≠ [] ∧
      cs.sum = D ∧
      (∀ x ∈ cs.dropLast, x = L) ∧
      ∃ lc, cs.getLast? = some lc ∧ 0 < lc ∧ lc ≤ L := by
  obtain ⟨hle, hge⟩ := ceil_div_bounds D L hL
  set n := (D + L - 1) / L with hn
  have hn1 : 1 ≤ n := by
    rw [hn]
    exact (Nat.one_le_div_iff hL).mpr (by omega)
  obtain ⟨m, hm⟩ : ∃ m, n = m + 1 := ⟨n - 1, by omega⟩
  have hmL : m * L + L = n * L := by rw [hm]; ring
  have hmlt : m * L < D := by omega
  refine ⟨(List.range n).map (fun i => min ((i + 1) * L) D - i * L),
    ?_, ?_, ?_, ?_, ?_⟩
  · unfold make_chunks
    rw [if_neg (by omega)]
  · simp [hm, List.range_succ]
  · rw [chunkLens_sum]
    omega
  · intro x hx
    rw [hm, List.range_succ, List.map_append] at hx
    simp only [List.map_cons, List.map_nil] at hx
    rw [List.dropLast_concat] at hx
    simp only [List.mem_map, List.mem_range] at hx
    obtain ⟨i, hi, rfl⟩ := hx
    have hiL : (i + 1) * L ≤ m * L :=
      Nat.mul_le_mul_right L (by omega)
    have hsucc : (i + 1) * L = i * L + L := by ring
    omega
  · refine ⟨min ((m + 1) * L) D - m * L, ?_, ?_, ?_⟩
    · rw [hm, List.range_succ, List.map_append]
      simp
    · have hsucc : (m + 1) * L = m * L + L := by ring
      omega
    · have hsucc : (m + 1) * L = m * L + L := by ring
      omega

/-- C4: whenever the bitrate is nonzero, the audio duration is
positive and the computed chunk duration is positive,
`split_audio_into_chunks` returns an ordered nonempty sequence of
chunk lengths summing to exactly the duration, with every chunk but
the last of exactly the computed length and the last in `(0, L]`. -/
theorem C4_split_coverage :
    ∀ seg mb, bitrate seg ≠ 0 → 0 < seg.length_ms →
      0 < chunk_length_ms seg mb →
      ∃ cs, split_audio_into_chunks seg mb = Except.ok cs ∧
        cs ≠ [] ∧
        cs.sum = seg.length_ms ∧
        (∀ x ∈ cs.dropLast, x = chunk_length_ms seg mb) ∧
        ∃ lc, cs.getLast? = some lc ∧ 0 < lc ∧
          lc ≤ chunk_length_ms seg mb := by
  intro seg mb hb hD hL
  have h := make_chunks_spec seg.length_ms (chunk_length_ms seg mb) hD hL
  unfold split_audio_into_chunks
  rw [if_neg hb]
  exact h

/-- C4 witness: the 25 ms audio with bitrate 16777216000 under the
20 MiB budget splits into chunks summing to 25, all but the last of
length 10, the last of length 5. -/
theorem C4_split_coverage_witness :
    ∃ cs, split_audio_into_chunks ⟨2097152000, 1, 1, 25⟩ 20 =
        Except.ok cs ∧
      cs ≠ [] ∧
      cs.sum = 25 ∧
      (∀ x ∈ cs.dropLast, x = chunk_length_ms ⟨2097152000, 1, 1, 25⟩ 20) ∧
      ∃ lc, cs.getLast? = some lc ∧ 0 < lc ∧
        lc ≤ chunk_length_ms ⟨2097152000, 1, 1, 25⟩ 20 :=
  C4_split_coverage ⟨2097152000, 1, 1, 25⟩ 20 (by decide) (by decide)
    (by decide)

/-! ## C3: unconditional cleanup on every exit path -/

theorem chunkLoop_dirExists (tc : Nat → Except PyErr String) (cb : Bool)
    (total : Nat) :
    ∀ (l : List Nat) (i : Nat) (acc : List String) (s : St),
      ((chunkLoop tc cb total l i acc s).2).fs.dirExists =
        s.fs.dirExists := by
  intro l
  induction l with
  | nil => intro i acc s; rfl
  | cons a rest ih =>
    intro i acc s
    simp only [chunkLoop]
    cases htc : tc i with
    | error e => simp [exportChunk_fs, emit_fs]
    | ok t =>
      simp only []
      rw [ih]
      simp [emit_fs, unlinkChunk_fs, exportChunk_fs]

theorem finishRun_fs (cb : Bool) (res : Except PyErr (List String) × St)
    (h : res.2.fs.dirExists = true) :
    ((finishRun cb res).2).fs = ⟨false, []⟩ := by
  unfold finishRun finallyCleanup
  cases hres : res.1 with
  | error e => simp [h, rmtreeTemp_fs]
  | ok ts => simp [emit_fs, h, rmtreeTemp_fs]

theorem runChunksAndMerge_fs (tc : Nat → Except PyErr String) (cb : Bool)
    (chunks : List Nat) (s : St) :
    ((runChunksAndMerge tc cb chunks s).2).fs = ⟨false, []⟩ := by
  unfold runChunksAndMerge
  apply finishRun_fs
  rw [chunkLoop_dirExists]
  simp [mkdirTemp_fs]

/-- C3: on every exit path of `transcribe_large_file` — normal return,
a load or split failure, or a transcription-call failure on any
intermediate chunk — neither the temporary working directory nor any
per-chunk transient file exists when the call returns. -/
theorem C3_cleanup_all_paths (env : Env) (cb : Bool) (s : St)
    (h1 : s.fs.dirExists = false) (h2 : s.fs.files = []) :
    ((transcribe_large_file env cb s).2).fs.dirExists = false ∧
    ((transcribe_large_file env cb s).2).fs.files = [] := by
  unfold transcribe_large_file
  cases hdec : env.decode with
  | fileNotFound => simp [load_audio, emit_fs, h1, h2]
  | couldntDecode => simp [load_audio, emit_fs, h1, h2]
  | ok seg =>
    simp only [load_audio]
    cases hsplit : split_audio_into_chunks seg 20 with
    | error e => simp [hsplit, emit_fs, h1, h2]
    | ok chunks => simp [hsplit, runChunksAndMerge_fs]

/-- C3 witness: with three chunks and the transcription call failing on
the second, the directory and all chunk files are gone on return. -/
theorem C3_cleanup_all_paths_witness :
    ((transcribe_large_file envFailMid true initSt).2).fs.dirExists =
      false ∧
    ((transcribe_large_file envFailMid true initSt).2).fs.files = [] :=
  C3_cleanup_all_paths envFailMid true initSt rfl rfl

/-! ## C10: at most one exported chunk file at any time -/

theorem atMostOneFileEach_iff (l : List FS) :
    atMostOneFileEach l = true ↔ ∀ f ∈ l, f.files.length ≤ 1 := by
  simp [atMostOneFileEach]

theorem chunkLoop_files_inv (tc : Nat → Except PyErr String) (cb : Bool)
    (total : Nat) :
    ∀ (l : List Nat) (i : Nat) (acc : List String) (s : St),
      s.fs.files = [] → (∀ f ∈ s.trace, f.files.length ≤ 1) →
      (∀ f ∈ ((chunkLoop tc cb total l i acc s).2).trace,
        f.files.length ≤ 1) ∧
      ((chunkLoop tc cb total l i acc s).2).fs.files.length ≤ 1 := by
  intro l
  induction l with
  | nil =>
    intro i acc s h1 h2
    exact ⟨h2, by simp [chunkLoop, h1]⟩
  | cons a rest ih =>
    intro i acc s h1 h2
    simp only [chunkLoop]
    cases htc : tc i with
    | error e =>
      constructor
      · intro f hf
        simp only [exportChunk_trace, emit_trace, emit_fs, h1,
          List.nil_append, List.mem_append, List.mem_singleton] at hf
        cases hf with
        | inl h => exact h2 f h
        | inr h => simp [h]
      · simp [exportChunk_fs, emit_fs, h1]
    | ok t =>
      simp only []
      apply ih
      · simp [emit_fs, unlinkChunk_fs, exportChunk_fs, h1]
      · intro f hf
        simp only [emit_trace, unlinkChunk_trace, exportChunk_trace,
          emit_fs, unlinkChunk_fs, exportChunk_fs, h1, List.nil_append,
          List.mem_append, List.mem_singleton] at hf
        rcases hf with (h | h) | h
        · exact h2 f h
        · simp [h]
        · simp [h]

theorem finishRun_trace_inv (cb : Bool)
    (res : Except PyErr (List String) × St)
    (h : ∀ f ∈ res.2.trace, f.files.length ≤ 1) :
    ∀ f ∈ ((finishRun cb res).2).trace, f.files.length ≤ 1 := by
  unfold finishRun finallyCleanup
  cases hres : res.1 with
  | error e =>
    simp only []
    intro f hf
    split at hf
    · simp only [rmtreeTemp_trace, List.mem_append,
        List.mem_singleton] at hf
      cases hf with
      | inl hm => exact h f hm
      | inr hm => simp [hm]
    · exact h f hf
  | ok ts =>
    simp only []
    intro f hf
    split at hf
    · simp only [rmtreeTemp_trace, emit_trace, List.mem_append,
        List.mem_singleton] at hf
      cases hf with
      | inl hm => exact h f hm
      | inr hm => simp [hm]
    · simp only [emit_trace] at hf
      exact h f hf

theorem runChunksAndMerge_trace_inv (tc : Nat → Except PyErr String)
    (cb : Bool) (chunks : List Nat) (s : St) (h1 : s.fs.files = [])
    (h2 : ∀ f ∈ s.trace, f.files.length ≤ 1) :
    ∀ f ∈ ((runChunksAndMerge tc cb chunks s).2).trace,
      f.files.length ≤ 1 := by
  unfold runChunksAndMerge
  apply finishRun_trace_inv
  apply (chunkLoop_files_inv tc cb chunks.length chunks 0 [] _ ?_ ?_).1
  · simp [mkdirTemp_fs, emit_fs, h1]
  · intro f hf
    simp only [mkdirTemp_trace, emit_trace, emit_fs, h1,
      List.mem_append, List.mem_singleton] at hf
    cases hf with
    | inl hm => exact h2 f hm
    | inr hm => simp [hm]

/-- C10: every filesystem snapshot in the trace of
`transcribe_large_file` holds at most one chunk file in the temporary
directory — each chunk file is deleted before the next one is
exported (the invariant holds on the success path and on every failure
path alike). -/
theorem C10_at_most_one_chunk_file (env : Env) (cb : Bool) (s : St)
    (h1 : s.fs.files = []) (h2 : atMostOneFileEach s.trace = true) :
    atMostOneFileEach ((transcribe_large_file env cb s).2).trace =
      true := by
  rw [atMostOneFileEach_iff] at h2 ⊢
  unfold transcribe_large_file
  cases hdec : env.decode with
  | fileNotFound => simpa [load_audio, emit_trace] using h2
  | couldntDecode => simpa [load_audio, emit_trace] using h2
  | ok seg =>
    simp only [load_audio]
    cases hsplit : split_audio_into_chunks seg 20 with
    | error e => simpa [hsplit, emit_trace] using h2
    | ok chunks =>
      simp only [hsplit]
      apply runChunksAndMerge_trace_inv
      · simpa [emit_fs, emit_trace] using h1
      · simpa [emit_fs, emit_trace] using h2

/-- C10 witness: the three-chunk success run keeps at most one chunk
file at every recorded point. -/
theorem C10_at_most_one_chunk_file_witness :
    atMostOneFileEach
      ((transcribe_large_file envOk3 true initSt).2).trace = true :=
  C10_at_most_one_chunk_file envOk3 true initSt rfl rfl

/-! ## C9: the progress observer never influences the outcome -/

theorem finallyCleanup_fs (s₁ s₂ : St) (h : s₁.fs = s₂.fs) :
    (finallyCleanup s₁).fs = (finallyCleanup s₂).fs := by
  unfold finallyCleanup
  rw [h]
  split
  · rfl
  · exact h

theorem finallyCleanup_trace (s₁ s₂ : St) (hfs : s₁.fs = s₂.fs)
    (htr : s₁.trace = s₂.trace) :
    (finallyCleanup s₁).trace = (finallyCleanup s₂).trace := by
  unfold finallyCleanup
  rw [hfs]
  split
  · simp [rmtreeTemp_trace, htr]
  · exact htr

theorem chunkLoop_cb_indep (tc : Nat → Except PyErr String)
    (total : Nat) :
    ∀ (l : List Nat) (i : Nat) (acc : List String) (cb₁ cb₂ : Bool)
      (s₁ s₂ : St), s₁.fs = s₂.fs → s₁.trace = s₂.trace →
      (chunkLoop tc cb₁ total l i acc s₁).1 =
        (chunkLoop tc cb₂ total l i acc s₂).1 ∧
      ((chunkLoop tc cb₁ total l i acc s₁).2).fs =
        ((chunkLoop tc cb₂ total l i acc s₂).2).fs ∧
      ((chunkLoop tc cb₁ total l i acc s₁).2).trace =
        ((chunkLoop tc cb₂ total l i acc s₂).2).trace := by
  intro l
  induction l with
  | nil => intro i acc cb₁ cb₂ s₁ s₂ hfs htr; exact ⟨rfl, hfs, htr⟩
  | cons a rest ih =>
    intro i acc cb₁ cb₂ s₁ s₂ hfs htr
    simp only [chunkLoop]
    cases htc : tc i with
    | error e =>
      refine ⟨rfl, ?_, ?_⟩
      · simp [exportChunk_fs, emit_fs, hfs]
      · simp [exportChunk_trace, emit_trace, emit_fs, hfs, htr]
    | ok t =>
      simp only []
      apply ih
      · simp [emit_fs, unlinkChunk_fs, exportChunk_fs, hfs]
      · simp [emit_trace, unlinkChunk_trace, exportChunk_trace, emit_fs,
          unlinkChunk_fs, exportChunk_fs, hfs, htr]

theorem finishRun_cb_indep (cb₁ cb₂ : Bool)
    (res₁ res₂ : Except PyErr (List String) × St)
    (h1 : res₁.1 = res₂.1) (hfs : res₁.2.fs = res₂.2.fs)
    (htr : res₁.2.trace = res₂.2.trace) :
    (finishRun cb₁ res₁).1 = (finishRun cb₂ res₂).1 ∧
    ((finishRun cb₁ res₁).2).fs = ((finishRun cb₂ res₂).2).fs ∧
    ((finishRun cb₁ res₁).2).trace = ((finishRun cb₂ res₂).2).trace := by
  unfold finishRun
  cases hr : res₁.1 with
  | error e =>
    have hr2 : res₂.1 = Except.error e := h1 ▸ hr
    rw [hr2]
    exact ⟨rfl, finallyCleanup_fs _ _ hfs, finallyCleanup_trace _ _ hfs htr⟩
  | ok ts =>
    have hr2 : res₂.1 = Except.ok ts := h1 ▸ hr
    rw [hr2]
    have hfs2 : (emit cb₁ "Merging transcripts..." res₁.2).fs =
        (emit cb₂ "Merging transcripts..." res₂.2).fs := by
      rw [emit_fs, emit_fs, hfs]
    have htr2 : (emit cb₁ "Merging transcripts..." res₁.2).trace =
        (emit cb₂ "Merging transcripts..." res₂.2).trace := by
      rw [emit_trace, emit_trace, htr]
    exact ⟨rfl, finallyCleanup_fs _ _ hfs2, finallyCleanup_trace _ _ hfs2 htr2⟩

theorem runChunksAndMerge_cb_indep (tc : Nat → Except PyErr String)
    (chunks : List Nat) (cb₁ cb₂ : Bool) (s₁ s₂ : St)
    (hfs : s₁.fs = s₂.fs) (htr : s₁.trace = s₂.trace) :
    (runChunksAndMerge tc cb₁ chunks s₁).1 =
      (runChunksAndMerge tc cb₂ chunks s₂).1 ∧
    ((runChunksAndMerge tc cb₁ chunks s₁).2).fs =
      ((runChunksAndMerge tc cb₂ chunks s₂).2).fs ∧
    ((runChunksAndMerge tc cb₁ chunks s₁).2).trace =
      ((runChunksAndMerge tc cb₂ chunks s₂).2).trace := by
  unfold runChunksAndMerge
  refine finishRun_cb_indep cb₁ cb₂ _ _ ?_ ?_ ?_
  · exact (chunkLoop_cb_indep tc chunks.length chunks 0 [] cb₁ cb₂ _ _
      (by simp [mkdirTemp_fs, emit_fs, hfs])
      (by simp [mkdirTemp_trace, emit_trace, emit_fs, hfs, htr])).1
  · exact (chunkLoop_cb_indep tc chunks.length chunks 0 [] cb₁ cb₂ _ _
      (by simp [mkdirTemp_fs, emit_fs, hfs])
      (by simp [mkdirTemp_trace, emit_trace, emit_fs, hfs, htr])).2.1
  · exact (chunkLoop_cb_indep tc chunks.length chunks 0 [] cb₁ cb₂ _ _
      (by simp [mkdirTemp_fs, emit_fs, hfs])
      (by simp [mkdirTemp_trace, emit_trace, emit_fs, hfs, htr])).2.2

theorem transcribe_large_file_cb_indep (env : Env) (cb₁ cb₂ : Bool)
    (s₁ s₂ : St) (hfs : s₁.fs = s₂.fs) (htr : s₁.trace = s₂.trace) :
    (transcribe_large_file env cb₁ s₁).1 =
      (transcribe_large_file env cb₂ s₂).1 ∧
    ((transcribe_large_file env cb₁ s₁).2).fs =
      ((transcribe_large_file env cb₂ s₂).2).fs ∧
    ((transcribe_large_file env cb₁ s₁).2).trace =
      ((transcribe_large_file env cb₂ s₂).2).trace := by
  unfold transcribe_large_file
  cases hdec : env.decode with
  | fileNotFound =>
    exact ⟨rfl, by simp [load_audio, emit_fs, hfs],
      by simp [load_audio, emit_trace, htr]⟩
  | couldntDecode =>
    exact ⟨rfl, by simp [load_audio, emit_fs, hfs],
      by simp [load_audio, emit_trace, htr]⟩
  | ok seg =>
    simp only [load_audio]
    cases hsplit : split_audio_into_chunks seg 20 with
    | error e =>
      exact ⟨rfl, by simp [emit_fs, hfs], by simp [emit_trace, htr]⟩
    | ok chunks =>
      apply runChunksAndMerge_cb_indep
      · simp [emit_fs, hfs]
      · simp [emit_trace, htr]

/-- C9: two runs of `transcribe_audio` on the same inputs, one with a
progress observer supplied and one without (or with any two observer
settings), return the same transcript and the same success/failure
outcome, and leave identical filesystem state and an identical
filesystem trace — the observer only affects the delivered status
strings. -/
theorem C9_observer_non_interference :
    ∀ (env : Env) (cb₁ cb₂ : Bool),
      (transcribe_audio env cb₁).1 = (transcribe_audio env cb₂).1 ∧
      ((transcribe_audio env cb₁).2).fs =
        ((transcribe_audio env cb₂).2).fs ∧
      ((transcribe_audio env cb₁).2).trace =
        ((transcribe_audio env cb₂).2).trace := by
  intro env cb₁ cb₂
  unfold transcribe_audio
  cases hr : route env.file_size with
  | direct => exact ⟨rfl, by simp [emit_fs], by simp [emit_trace]⟩
  | chunked =>
    apply transcribe_large_file_cb_indep
    · simp [emit_fs]
    · simp [emit_trace]

/-! ## C6: zero-duration input -/

/-- C6 counterexample: on a decoded audio of zero duration (whose file
size routes to the chunked path), the split yields the empty chunk
sequence and `transcribe_audio` returns the empty transcript
`Except.ok ""` — it does not fail, and in particular it raises no
`EmptyAudioError` (no such error exists in the code). -/
theorem C6_zero_duration_cex :
    split_audio_into_chunks ⟨1, 1, 1, 0⟩ 20 = Except.ok [] ∧
    route envZeroDur.file_size = Route.chunked ∧
    (transcribe_audio envZeroDur false).1 = Except.ok "" :=
  ⟨by rfl, by rfl, by rfl⟩

/-- C6 amended: for every input whose decoded duration is zero (and
whose audio properties let the chunk-length computation succeed), the
chunked pipeline produces an empty chunk sequence and returns the empty
string as transcript rather than failing. -/
theorem C6_zero_duration_amended (env : Env) (cb : Bool) (s : St)
    (seg : AudioSeg) (hdec : env.decode = DecodeOutcome.ok seg)
    (hdur : seg.length_ms = 0) (hbr : bitrate seg ≠ 0)
    (hcl : chunk_length_ms seg 20 ≠ 0) :
    split_audio_into_chunks seg 20 = Except.ok [] ∧
    (transcribe_large_file env cb s).1 = Except.ok "" := by
  have hsplit : split_audio_into_chunks seg 20 = Except.ok [] := by
    unfold split_audio_into_chunks make_chunks
    rw [if_neg hbr, if_neg hcl, hdur]
    have hz : (0 + chunk_length_ms seg 20 - 1) / chunk_length_ms seg 20 =
        0 := Nat.div_eq_of_lt (by omega)
    rw [hz]
    simp
  refine ⟨hsplit, ?_⟩
  unfold transcribe_large_file
  rw [hdec]
  simp only [load_audio, hsplit]
  simp [runChunksAndMerge, finishRun, chunkLoop, pyJoin]

/-- C6 witness: the concrete zero-duration environment, through
`transcribe_large_file`, yields the empty chunk sequence and the empty
transcript. -/
theorem C6_zero_duration_amended_witness :
    split_audio_into_chunks ⟨1, 1, 1, 0⟩ 20 = Except.ok [] ∧
    (transcribe_large_file envZeroDur false initSt).1 = Except.ok "" :=
  C6_zero_duration_amended envZeroDur false initSt ⟨1, 1, 1, 0⟩ rfl rfl
    (by decide) (by decide)

/-! ## C8: the default transcript path -/

theorem splitFirstDot_append (l r : List Char) (h : '.' ∉ l) :
    splitFirstDot (l ++ '.' :: r) = some (l, r) := by
  induction l with
  | nil => simp [splitFirstDot]
  | cons c cs ih =>
    have hc : ¬ c = '.' := by
      intro hq
      exact h (hq ▸ List.mem_cons_self c cs)
    have hcs : '.' ∉ cs := fun hq => h (List.mem_cons_of_mem c hq)
    simp [splitFirstDot, hc, ih hcs]

theorem pathStem_of_ext (stm ext : List Char) (hs : stm ≠ [])
    (he : ext ≠ []) (hde : '.' ∉ ext) :
    pathStem (stm ++ '.' :: ext) = stm := by
  unfold pathStem
  have hrev : (stm ++ '.' :: ext).reverse =
      ext.reverse ++ '.' :: stm.reverse := by
    simp
  rw [hrev, splitFirstDot_append ext.reverse stm.reverse
    (by simpa using hde)]
  simp [hs, he]

theorem splitOnSlash_ne_nil (l : List Char) : splitOnSlash l ≠ [] := by
  cases l with
  | nil => simp [splitOnSlash]
  | cons c cs =>
    simp only [splitOnSlash]
    cases h : splitOnSlash cs with
    | nil => simp
    | cons g gs =>
      simp only []
      split <;> simp

theorem splitOnSlash_cons_slash (l : List Char) :
    splitOnSlash ('/' :: l) = [] :: splitOnSlash l := by
  simp only [splitOnSlash]
  cases h : splitOnSlash l with
  | nil => exact absurd h (splitOnSlash_ne_nil l)
  | cons g gs => simp

theorem splitOnSlash_no_slash (g : List Char) (h : '/' ∉ g) :
    splitOnSlash g = [g] := by
  induction g with
  | nil => rfl
  | cons c cs ih =>
    have hc : ¬ c = '/' := by
      intro hq
      exact h (hq ▸ List.mem_cons_self c cs)
    have hcs : '/' ∉ cs := fun hq => h (List.mem_cons_of_mem c hq)
    simp only [splitOnSlash, ih hcs]
    simp [hc]

theorem splitOnSlash_append (g rest : List Char) (h : '/' ∉ g) :
    splitOnSlash (g ++ '/' :: rest) = g :: splitOnSlash rest := by
  induction g with
  | nil => simpa using splitOnSlash_cons_slash rest
  | cons c cs ih =>
    have hc : ¬ c = '/' := by
      intro hq
      exact h (hq ▸ List.mem_cons_self c cs)
    have hcs : '/' ∉ cs := fun hq => h (List.mem_cons_of_mem c hq)
    rw [List.cons_append, splitOnSlash, ih hcs]
    simp [hc]

theorem splitOnSlash_joinSlash :
    ∀ (parts : List (List Char)),
      (∀ g ∈ parts, g ≠ [] ∧ '/' ∉ g) → parts ≠ [] →
      splitOnSlash (joinSlash parts) = parts := by
  intro parts
  induction parts with
  | nil => intro _ hne; exact absurd rfl hne
  | cons g gs ih =>
    intro h _
    cases gs with
    | nil =>
      simp only [joinSlash]
      exact splitOnSlash_no_slash g (h g (by simp)).2
    | cons g2 gs2 =>
      simp only [joinSlash]
      rw [splitOnSlash_append g _ (h g (by simp)).2]
      rw [ih (fun x hx => h x (by simp [hx])) (by simp)]

theorem parsePath_renderPath (parts : List (List Char))
    (h : ∀ g ∈ parts, g ≠ [] ∧ '/' ∉ g) :
    parsePath (renderPath ⟨true, parts⟩) = ⟨true, parts⟩ := by
  cases parts with
  | nil => rfl
  | cons g gs =>
    show parsePath (String.mk ('/' :: joinSlash (g :: gs))) = _
    unfold parsePath
    rw [PyPath.mk.injEq]
    constructor
    · rfl
    · show (splitOnSlash ('/' :: joinSlash (g :: gs))).filter
          (fun x => x ≠ []) = g :: gs
      rw [splitOnSlash_cons_slash, splitOnSlash_joinSlash (g :: gs) h
        (by simp)]
      rw [List.filter_cons]
      simp only [ne_eq, not_true_eq_false, decide_False, if_false]
      exact List.filter_eq_self.mpr
        (fun a ha => by simp [(h a ha).1])

/-- C8: `get_default_transcript_path` is a pure function returning a
sibling path: for every absolute path made of well-formed directory
components and a file name `stem.ext` (nonempty stem and extension, no
dot in the extension), the result is the path in the same directory
whose name is the stem followed by `_transcript.txt`; in particular on
`"/x/song.mp3"` it returns `"/x/song_transcript.txt"`. -/
theorem C8_default_transcript_path :
    (∀ (dirs : List (List Char)) (stm ext : List Char),
      (∀ g ∈ dirs, g ≠ [] ∧ '/' ∉ g) →
      stm ≠ [] → ext ≠ [] → '.' ∉ ext → '/' ∉ stm → '/' ∉ ext →
      get_default_transcript_path
          (renderPath ⟨true, dirs ++ [stm ++ '.' :: ext]⟩) =
        renderPath ⟨true, dirs ++ [stm ++ "_transcript.txt".toList]⟩) ∧
    get_default_transcript_path "/x/song.mp3" = "/x/song_transcript.txt" := by
  constructor
  · intro dirs stm ext hdirs hs he hde hsl hel
    have hname_ne : stm ++ '.' :: ext ≠ [] := by simp
    have hname_nosl : '/' ∉ stm ++ '.' :: ext := by
      simp only [List.mem_append, List.mem_cons]
      push_neg
      exact ⟨hsl, by decide, hel⟩
    have hall : ∀ g ∈ dirs ++ [stm ++ '.' :: ext], g ≠ [] ∧ '/' ∉ g := by
      intro g hg
      rcases List.mem_append.mp hg with hg | hg
      · exact hdirs g hg
      · rw [List.mem_singleton.mp hg]
        exact ⟨hname_ne, hname_nosl⟩
    unfold get_default_transcript_path
    rw [parsePath_renderPath (dirs ++ [stm ++ '.' :: ext]) hall]
    show renderPath ⟨true, (dirs ++ [stm ++ '.' :: ext]).dropLast ++
      [pathStem (pathName ⟨true, dirs ++ [stm ++ '.' :: ext]⟩) ++
        "_transcript.txt".toList]⟩ = _
    rw [List.dropLast_concat]
    unfold pathName
    rw [show (⟨true, dirs ++ [stm ++ '.' :: ext]⟩ : PyPath).parts =
      dirs ++ [stm ++ '.' :: ext] from rfl]
    rw [List.getLast?_concat]
    show renderPath ⟨true, dirs ++
      [pathStem (stm ++ '.' :: ext) ++ "_transcript.txt".toList]⟩ = _
    rw [pathStem_of_ext stm ext hs he hde]
  · decide

/-- C8 witness: on the rendered path `/a/b/v.w` the helper returns
`/a/b/v_transcript.txt`. -/
theorem C8_default_transcript_path_witness :
    get_default_transcript_path
        (renderPath ⟨true, [['a'], ['b']] ++ [['v'] ++ '.' :: ['w']]⟩) =
      renderPath ⟨true, [['a'], ['b']] ++
        [['v'] ++ "_transcript.txt".toList]⟩ :=
  C8_default_transcript_path.1 [['a'], ['b']] ['v'] ['w'] (by decide)
    (by decide) (by decide) (by decide) (by decide) (by decide)

end ATS
